import Mathlib

/-!
Verification development for the talentpilot application-submission pipeline.

The definitions below are a shallow embedding of the Python sources:

* `submission/form_handler.py`    — `ApplicationFormHandler` (multi-step navigation)
* `submission/field_filler.py`    — field-population passes and the
  years-of-experience heuristic
* `auth/session_manager.py`       — `SessionManager._perform_login`
* `evaluation/filter_chain.py`    — `CompanyBlockFilter` / `TitleBlockFilter`
* `orchestrator.py`               — `ApplicationPipeline` (filtering, cap check)
* `reporting/tracker.py`          — `SubmissionTracker.upsert_posting`
* `browser/playwright_adapter.py` — `PlaywrightAdapter.query/fill/click`

Python / JavaScript strings are modelled as Lean `String` (converted to
`List Char` internally); browser pages are modelled as explicit environments
(functions from an observation index to the page's observable affordances).
-/

namespace TalentPilot

/-! ### String primitives mirroring Python / JavaScript string operations -/

/-- Character-wise lowercase, mirroring `str.lower()` / `toLowerCase()` on the
ASCII strings the code manipulates. -/
def lcStr (s : List Char) : List Char := s.map Char.toLower

/-- Whitespace characters stripped by Python `str.strip()` / JS `trim()`. -/
def isWsChar (c : Char) : Bool :=
  c == ' ' || c == '\t' || c == '\n' || c == '\r' || c == '\x0b' || c == '\x0c'

/-- Python `str.strip()` / JS `String.prototype.trim()`: drop leading and
trailing whitespace. -/
def pyStrip (s : List Char) : List Char :=
  ((s.dropWhile isWsChar).reverse.dropWhile isWsChar).reverse

/-- `hay` starts with `needle` (both already case-normalised by callers). -/
def listStartsWith : List Char → List Char → Bool
  | _, [] => true
  | [], _ :: _ => false
  | c :: cs, d :: ds => c == d && listStartsWith cs ds

/-- Substring containment, mirroring Python `needle in hay` and JS
`hay.includes(needle)`. -/
def containsSub : List Char → List Char → Bool
  | [], needle => listStartsWith [] needle
  | c :: rest, needle => listStartsWith (c :: rest) needle || containsSub rest needle

theorem listStartsWith_iff (needle : List Char) :
    ∀ hay, listStartsWith hay needle = true ↔ ∃ t, hay = needle ++ t := by
  induction needle with
  | nil =>
    intro hay
    simp [listStartsWith]
  | cons d ds ih =>
    intro hay
    cases hay with
    | nil =>
      simp [listStartsWith]
    | cons c cs =>
      simp only [listStartsWith, Bool.and_eq_true, beq_iff_eq, ih cs]
      constructor
      · rintro ⟨rfl, t, rfl⟩
        exact ⟨t, rfl⟩
      · rintro ⟨t, ht⟩
        cases ht
        exact ⟨rfl, t, rfl⟩

theorem containsSub_iff (needle : List Char) :
    ∀ hay, containsSub hay needle = true ↔ ∃ l r, hay = l ++ needle ++ r := by
  intro hay
  induction hay with
  | nil =>
    simp only [containsSub, listStartsWith_iff]
    constructor
    · rintro ⟨t, ht⟩
      exact ⟨[], t, by simpa using ht⟩
    · rintro ⟨l, r, h⟩
      have h0 : l ++ (needle ++ r) = [] := by rw [← List.append_assoc]; exact h.symm
      rcases List.append_eq_nil.mp h0 with ⟨rfl, h1⟩
      rcases List.append_eq_nil.mp h1 with ⟨rfl, rfl⟩
      exact ⟨[], rfl⟩
  | cons c cs ih =>
    simp only [containsSub, Bool.or_eq_true, listStartsWith_iff, ih]
    constructor
    · rintro (⟨t, ht⟩ | ⟨l, r, h⟩)
      · exact ⟨[], t, by simpa using ht⟩
      · exact ⟨c :: l, r, by simp [h]⟩
    · rintro ⟨l, r, h⟩
      cases l with
      | nil =>
        exact Or.inl ⟨r, by simpa using h⟩
      | cons x xs =>
        right
        refine ⟨xs, r, ?_⟩
        have := h
        simp only [List.cons_append] at this
        exact (List.cons.injEq .. ▸ this).2

/-- The stripped form of a string sits inside it:
`s = leading-ws ++ pyStrip s ++ trailing-ws`. -/
theorem pyStrip_infix_decomp (s : List Char) : ∃ l r, s = l ++ pyStrip s ++ r := by
  refine ⟨s.takeWhile isWsChar,
    (((s.dropWhile isWsChar).reverse.takeWhile isWsChar)).reverse, ?_⟩
  unfold pyStrip
  conv_lhs => rw [← List.takeWhile_append_dropWhile (p := isWsChar) (l := s)]
  rw [List.append_assoc]
  congr 1
  rw [← List.reverse_append, List.takeWhile_append_dropWhile, List.reverse_reverse]

/-- If `hay` contains `needle`, it contains every contiguous piece of
`needle`; used to relate containment of a raw term with containment of its
stripped form. -/
theorem containsSub_of_middle (hay l mid r : List Char)
    (h : containsSub hay (l ++ mid ++ r) = true) : containsSub hay mid = true := by
  rcases (containsSub_iff _ hay).mp h with ⟨a, b, hab⟩
  refine (containsSub_iff _ hay).mpr ⟨a ++ l, r ++ b, ?_⟩
  simp only [hab, List.append_assoc]

theorem lcStr_append (a b : List Char) : lcStr (a ++ b) = lcStr a ++ lcStr b := by
  simp [lcStr]

/-! ### Data model (`models.py`) -/

/-- `JobPosting` from `models.py` — immutable record of a discovered listing. -/
structure JobPosting where
  platform : String
  platform_id : String
  url : String
  title : String := ""
  company : String := ""
  location_label : String := ""
  detail_text : String := ""
  salary_text : String := ""
  discovered_at : String := ""
deriving DecidableEq

/-- Submission outcome strings recorded by the pipeline. -/
inductive Outcome
  | succeeded
  | dry_run
  | failed
  | skipped_duplicate
  | skipped_blacklist
deriving DecidableEq

/-! ### `SubmissionTracker.upsert_posting` (`reporting/tracker.py`)

The `postings` table is modelled as a list of `(rowid, posting)` pairs plus
the next `AUTOINCREMENT` id.  The schema's `UNIQUE(platform, platform_id)`
constraint is the well-formedness predicate `distinctIdentities`. -/

structure TrackerDB where
  rows : List (Nat × JobPosting)
  nextId : Nat
deriving DecidableEq

/-- Row matches the identity `(platform, platform_id)` — the `WHERE` clause of
the lookup in `upsert_posting`. -/
def rowMatches (platform pid : String) (row : Nat × JobPosting) : Bool :=
  row.2.platform == platform && row.2.platform_id == pid

/-- `SELECT id FROM postings WHERE platform=? AND platform_id=?` (first row). -/
def findPosting (db : TrackerDB) (platform pid : String) : Option Nat :=
  (db.rows.find? (rowMatches platform pid)).map Prod.fst

/-- `SubmissionTracker.upsert_posting`: return the existing row's id, or
insert a fresh row and return its id. -/
def upsert_posting (db : TrackerDB) (p : JobPosting) : Nat × TrackerDB :=
  match findPosting db p.platform p.platform_id with
  | some i => (i, db)
  | none => (db.nextId, ⟨db.rows ++ [(db.nextId, p)], db.nextId + 1⟩)

/-- The `UNIQUE(platform, platform_id)` constraint of the schema: no two rows
share an identity. -/
def distinctIdentities : List (Nat × JobPosting) → Bool
  | [] => true
  | row :: rest =>
      rest.all (fun s => !(s.2.platform == row.2.platform && s.2.platform_id == row.2.platform_id))
        && distinctIdentities rest

/-- Number of rows carrying a given identity. -/
def countIdentity (db : TrackerDB) (platform pid : String) : Nat :=
  db.rows.countP (rowMatches platform pid)

/-! ### `ApplicationFormHandler` (`submission/form_handler.py`)

The browser is abstracted as an environment `Nat → PageView`: index `pos`
counts the navigation clicks performed so far, and `env pos` records which
affordances the probes of `form_handler.py` observe on the page reached after
`pos` clicks.  Only the observations the handler actually branches on are
modelled. -/

/-- Observable affordances of one form page, as probed by
`ApplicationFormHandler`. -/
structure PageView where
  /-- `_find_submit_with_scroll` finds a Submit button. -/
  hasSubmit : Bool
  /-- `_find_button(_REVIEW_SELECTORS)` finds a Review button. -/
  hasReview : Bool
  /-- `_find_button(_NEXT_SELECTORS)` finds a Next/Continue button. -/
  hasNext : Bool
  /-- `_js_click_bottom_button` finds and clicks some action button. -/
  jsBottomFinds : Bool
  /-- the direct `el.click()` script on the Submit handle succeeds. -/
  submitDirectOk : Bool
  /-- the forced native `click(force=True)` on the Submit handle succeeds. -/
  submitForceOk : Bool
  /-- `_js_click_submit` (script find-and-click by text) succeeds. -/
  submitJsFindOk : Bool
deriving DecidableEq

/-- The three escalating submit-click strategies of `_submit_final`. -/
inductive SubmitClick
  | directScript
  | forcedNative
  | scriptFindClick
deriving DecidableEq

/-- Terminal outcome values returned by `attempt_submission`. -/
inductive FormOutcome
  | succeeded
  | dry_run
deriving DecidableEq

/-- The `FormSubmissionError` messages raised by `form_handler.py`. -/
inductive FormError
  | noNavButton
  | maxStepsExceeded
  | submitNotClickable
deriving DecidableEq

/-- Result of a handler call: a returned outcome or a raised
`FormSubmissionError`. -/
inductive FormResult
  | ok (o : FormOutcome)
  | err (e : FormError)
deriving DecidableEq

/-- `_MAX_FORM_STEPS = 10` — max form steps to prevent infinite loops. -/
def maxFormSteps : Nat := 10

/-- Result of a navigation run: outcome/exception, the submit-click strategies
invoked, the number of loop iterations executed, and whether the step bound
was exhausted without reaching a terminal branch. -/
structure NavResult where
  res : FormResult
  clicks : List SubmitClick
  steps : Nat
  boundHit : Bool
deriving DecidableEq

/-- `ApplicationFormHandler._submit_final`: in simulation mode dismiss the
modal and return `dry_run` without clicking; otherwise try the three
escalating click strategies in order, returning `succeeded` on the first that
succeeds and raising `FormSubmissionError` when all three fail. -/
def submitFinal (simulation : Bool) (v : PageView) : FormResult × List SubmitClick :=
  if simulation then (.ok .dry_run, [])
  else if v.submitDirectOk then (.ok .succeeded, [.directScript])
  else if v.submitForceOk then (.ok .succeeded, [.directScript, .forcedNative])
  else if v.submitJsFindOk then
    (.ok .succeeded, [.directScript, .forcedNative, .scriptFindClick])
  else (.err .submitNotClickable, [.directScript, .forcedNative, .scriptFindClick])

/-- `ApplicationFormHandler._navigate_multi_step`: the `for step in
range(_MAX_FORM_STEPS)` loop.  Each iteration re-populates fields, then checks
Submit, Review, Next and the script fallback in order; clicking Review/Next or
the fallback advances the page (`pos + 1`) and loops.  Running out of `fuel`
is the `# Hit max steps` path after the loop. -/
def navigateMultiStep (simulation : Bool) (env : Nat → PageView) (pos : Nat) :
    Nat → NavResult
  | 0 =>
    { res := if simulation then .ok .dry_run else .err .maxStepsExceeded
      clicks := [], steps := 0, boundHit := true }
  | fuel + 1 =>
    let v := env pos
    if v.hasSubmit then
      let fin := submitFinal simulation v
      { res := fin.1, clicks := fin.2, steps := 1, boundHit := false }
    else if v.hasReview then
      let rest := navigateMultiStep simulation env (pos + 1) fuel
      { rest with steps := rest.steps + 1 }
    else if v.hasNext then
      let rest := navigateMultiStep simulation env (pos + 1) fuel
      { rest with steps := rest.steps + 1 }
    else if v.jsBottomFinds then
      let rest := navigateMultiStep simulation env (pos + 1) fuel
      { rest with steps := rest.steps + 1 }
    else
      { res := if simulation then .ok .dry_run else .err .noNavButton
        clicks := [], steps := 1, boundHit := false }

/-- `ApplicationFormHandler.attempt_submission`: single-page fast path, then
an optional Next click and second Submit check (two-page form), then the
multi-step loop. -/
def attemptSubmission (simulation : Bool) (env : Nat → PageView) : NavResult :=
  let v0 := env 0
  if v0.hasSubmit then
    let fin := submitFinal simulation v0
    { res := fin.1, clicks := fin.2, steps := 0, boundHit := false }
  else
    let pos1 := if v0.hasNext then 1 else 0
    let v1 := env pos1
    if v1.hasSubmit then
      let fin := submitFinal simulation v1
      { res := fin.1, clicks := fin.2, steps := 0, boundHit := false }
    else
      navigateMultiStep simulation env pos1 maxFormSteps

/-! ### `SessionManager._perform_login` (`auth/session_manager.py`)

The environment records, for each of the polls after submitting the login
form, whether the URL contains `/feed` and whether any of the
`_LOGGED_IN_SELECTORS` markers is present. -/

/-- Poll observations available to `_perform_login`. -/
structure LoginEnv where
  /-- poll `i` sees a URL containing `"/feed"`. -/
  feedAt : Nat → Bool
  /-- poll `i` finds one of the logged-in DOM markers. -/
  markerAt : Nat → Bool

/-- Poll `i` observes a success signal (URL or any marker). -/
def loginSignal (env : LoginEnv) (i : Nat) : Bool :=
  env.feedAt i || env.markerAt i

/-- The two `AuthenticationError` messages `_perform_login` can raise. -/
inductive AuthErrorKind
  | missingCredentials
  | loginTimeout
deriving DecidableEq

/-- Result of `_perform_login`: normal return recording the poll at which a
success signal was seen, or a raised `AuthenticationError`. -/
inductive LoginResult
  | ok (poll : Nat)
  | err (e : AuthErrorKind)
deriving DecidableEq

/-- The `for attempt in range(18)` poll loop of `_perform_login`. -/
def loginPolls (env : LoginEnv) : Nat → Nat → LoginResult
  | _, 0 => .err .loginTimeout
  | i, fuel + 1 =>
    if loginSignal env i then .ok i else loginPolls env (i + 1) fuel

/-- `SessionManager._perform_login`: raise when email or password is empty,
otherwise fill and submit the login form and poll up to 18 times (5 s apart)
for a success signal. -/
def performLogin (email password : String) (env : LoginEnv) : LoginResult :=
  if email = "" || password = "" then .err .missingCredentials
  else loginPolls env 0 18

/-! ### `PlaywrightAdapter` query / fill / click (`browser/playwright_adapter.py`)

A probe models the page's answer to one selector operation: the element found
within the timeout (if any) and whether the page itself errored. -/

/-- Outcome of one selector operation against the real page. -/
structure PageProbe where
  /-- element handle found before the timeout, if any. -/
  found : Option Nat
  /-- the page/target errored while the operation ran. -/
  pageError : Bool
deriving DecidableEq

/-- A raw Playwright call: returns a value or throws. -/
inductive PwRaw (α : Type)
  | ok (a : α)
  | err
deriving DecidableEq

/-- `page.wait_for_selector`: throws on page error or when no element appears
before the timeout. -/
def waitForSelectorRaw (p : PageProbe) : PwRaw Nat :=
  if p.pageError then .err
  else match p.found with
    | some h => .ok h
    | none => .err

/-- `PlaywrightAdapter.query`: wrap `wait_for_selector` in `try/except` and
return `None` on any failure. -/
def adapterQuery (p : PageProbe) : Option Nat :=
  match waitForSelectorRaw p with
  | .ok h => some h
  | .err => none

/-- `page.fill(selector, value)`: throws when the element is missing or the
page errors. -/
def pageFillRaw (p : PageProbe) : PwRaw Unit :=
  if p.pageError then .err
  else match p.found with
    | some _ => .ok ()
    | none => .err

/-- `page.click(selector, timeout)`: same failure behaviour as `fill`. -/
def pageClickRaw (p : PageProbe) : PwRaw Unit :=
  if p.pageError then .err
  else match p.found with
    | some _ => .ok ()
    | none => .err

/-- `PlaywrightAdapter.fill`: no `try/except` — the page call's failure
propagates to the caller unchanged. -/
def adapterFill (p : PageProbe) : PwRaw Unit := pageFillRaw p

/-- `PlaywrightAdapter.click`: no `try/except` — the page call's failure
propagates to the caller unchanged. -/
def adapterClick (p : PageProbe) : PwRaw Unit := pageClickRaw p

/-- Page answer to one `query_selector_all` call. -/
structure QueryAllProbe where
  elems : List Nat
  pageError : Bool
deriving DecidableEq

/-- `page.query_selector_all`: returns the (possibly empty) match list, or
throws when the page errors. -/
def queryAllRaw (p : QueryAllProbe) : PwRaw (List Nat) :=
  if p.pageError then .err else .ok p.elems

/-- `PlaywrightAdapter.query_all`: try once, recover the page and retry on
failure, and return `[]` when the retry fails too. -/
def adapterQueryAll (p1 p2 : QueryAllProbe) : List Nat :=
  match queryAllRaw p1 with
  | .ok l => l
  | .err =>
    match queryAllRaw p2 with
    | .ok l => l
    | .err => []

/-! ### `ApplicationPipeline` submission cap (`orchestrator.py`) -/

/-- `ApplicationPipeline._check_cap`: `True` means `CapReachedError` is
raised (`cap > 0 and total_submitted >= cap`). -/
def checkCap (cap : Int) (totalSubmitted : Nat) : Bool :=
  decide (0 < cap) && decide (cap ≤ (totalSubmitted : Int))

/-- The `total_submitted` update in `_process_single_posting`: incremented
exactly when the attempt's outcome is `"succeeded"`. -/
def updateSubmitted (totalSubmitted : Nat) (o : Outcome) : Nat :=
  if o = Outcome.succeeded then totalSubmitted + 1 else totalSubmitted

/-- Number of `"succeeded"` outcomes in a run prefix. -/
def countSucceeded (os : List Outcome) : Nat :=
  os.countP (fun o => decide (o = Outcome.succeeded))

/-- The `for job_id in job_ids` loop of `_process_search`: `_check_cap` runs
before each posting; each posting resolves to an outcome which updates
`total_submitted`.  Returns `none` when `CapReachedError` was raised, else
`some` of the final `total_submitted`. -/
def runSearchJobs (cap : Int) : Nat → List Outcome → Option Nat
  | submitted, [] => some submitted
  | submitted, o :: rest =>
    if checkCap cap submitted then none
    else runSearchJobs cap (updateSubmitted submitted o) rest

/-! ### Years-of-experience heuristic (`submission/field_filler.py`)

The JS regex
`/(\d+)\s*(?:\+\s*)?years?\s*(?:of\s*)?(?:relevant\s*)?(?:work\s*)?experience/i`
is embedded as a deterministic scanner.  For this pattern the deterministic
greedy scan agrees with the regex engine: every optional piece starts with a
non-whitespace letter distinct from the first letter of each later
alternative, so backtracking can never turn a failure into a success, and a
shorter digit capture can never rescue a failed tail. -/

/-- ASCII digit test (`\d`). -/
def isDigitChar (c : Char) : Bool := '0' ≤ c && c ≤ '9'

/-- Greedy `\d+`: split a maximal digit run off the front. -/
def takeDigits : List Char → List Char × List Char
  | [] => ([], [])
  | c :: cs =>
    if isDigitChar c then
      let rest := takeDigits cs
      (c :: rest.1, rest.2)
    else ([], c :: cs)

/-- `parseInt(digits, 10)`. -/
def digitsToNatAux (acc : Nat) : List Char → Nat
  | [] => acc
  | c :: cs => digitsToNatAux (acc * 10 + (c.toNat - '0'.toNat)) cs

def digitsToNat (ds : List Char) : Nat := digitsToNatAux 0 ds

/-- `\s*`. -/
def dropWs (s : List Char) : List Char := s.dropWhile isWsChar

/-- Consume a case-insensitive literal as a front segment, or fail. -/
def eatLitCI : List Char → List Char → Option (List Char)
  | [], s => some s
  | _ :: _, [] => none
  | c :: cs, d :: ds => if d.toLower == c then eatLitCI cs ds else none

/-- Optional literal followed by `\s*` (`(?:lit\s*)?`). -/
def eatOptLitWs (lit : List Char) (s : List Char) : List Char :=
  match eatLitCI lit s with
  | some rest => dropWs rest
  | none => s

/-- The tail of the experience regex after the digit capture:
`\s*(?:\+\s*)?years?\s*(?:of\s*)?(?:relevant\s*)?(?:work\s*)?experience`. -/
def matchExpTail (s : List Char) : Bool :=
  let s1 := dropWs s
  let s2 :=
    match s1 with
    | '+' :: rest => dropWs rest
    | _ => s1
  match eatLitCI ['y', 'e', 'a', 'r'] s2 with
  | none => false
  | some s3 =>
    let s4 :=
      match s3 with
      | c :: rest => if c.toLower == 's' then rest else c :: rest
      | [] => []
    let s5 := dropWs s4
    let s6 := eatOptLitWs ['o', 'f'] s5
    let s7 := eatOptLitWs ['r', 'e', 'l', 'e', 'v', 'a', 'n', 't'] s6
    let s8 := eatOptLitWs ['w', 'o', 'r', 'k'] s7
    (eatLitCI ['e', 'x', 'p', 'e', 'r', 'i', 'e', 'n', 'c', 'e'] s8).isSome

/-- Attempt the full experience pattern anchored at the front of `s`,
returning the captured required-years number. -/
def matchExpAt (s : List Char) : Option Nat :=
  let split := takeDigits s
  if split.1 = [] then none
  else if matchExpTail split.2 then some (digitsToNat split.1) else none

/-- `labelText.match(expRegex)`: leftmost match wins. -/
def findExpYears : List Char → Option Nat
  | [] => none
  | c :: cs =>
    match matchExpAt (c :: cs) with
    | some n => some n
    | none => findExpYears cs

/-! ### Dropdown pass decision (`_fill_dropdowns`) -/

/-- What `_fill_dropdowns` decides to do for one unfilled `<select>` with a
given label. -/
inductive DropdownAction
  | selectCountry (target : String)
  | selectValue (v : String)
  | fallbackYesOrFirst
deriving DecidableEq

/-- The country/nation label test guarding the country special case. -/
def isCountryLabel (labelText : List Char) : Bool :=
  containsSub labelText "country".data || containsSub labelText "nation".data ||
    containsSub labelText "phone country".data

/-- Target country for the country special case: first response value whose
key contains `'country'`, else `'India'`. -/
def countryTarget (responses : List (String × String)) : String :=
  match responses.find? (fun kv => containsSub (lcStr kv.1.data) "country".data) with
  | some kv => kv.2
  | none => "India"

/-- First response whose lowercased key is a substring of the (lowercased)
label (`labelText.includes(key.toLowerCase())`, insertion order). -/
def firstResponseMatch (responses : List (String × String)) (labelText : List Char) :
    Option String :=
  (responses.find? (fun kv => containsSub labelText (lcStr kv.1.data))).map Prod.snd

/-- The decision logic of `_fill_dropdowns` for one visible, unfilled select
whose raw label text is `rawLabel`: country special case first, then the
response table, then the years-of-experience heuristic, else the
`Yes`/first-real-option fallback. -/
def dropdownDecision (responses : List (String × String)) (rawLabel : String)
    (applicantYears : Nat) : DropdownAction :=
  let labelText := lcStr (pyStrip rawLabel.data)
  if isCountryLabel labelText then .selectCountry (countryTarget responses)
  else
    match firstResponseMatch responses labelText with
    | some v => .selectValue v
    | none =>
      match findExpYears labelText with
      | some n => .selectValue (if n ≤ applicantYears then "Yes" else "No")
      | none => .fallbackYesOrFirst

/-! ### Radio-group pass (`_fill_radio_buttons`, JS pass) -/

/-- `matchValue` as computed by the JS radio pass for a fieldset whose
legend/span text is `rawLegend`: response table first (value lowercased and
trimmed), then the years heuristic (`'yes'`/`'no'`), else nothing. -/
def radioGroupAnswer (responses : List (String × String)) (rawLegend : String)
    (applicantYears : Nat) : Option String :=
  let groupLabel := lcStr (pyStrip rawLegend.data)
  match (responses.find? (fun kv => containsSub groupLabel (lcStr kv.1.data))).map
      (fun kv => (⟨lcStr (pyStrip kv.2.data)⟩ : String)) with
  | some v => some v
  | none =>
    match findExpYears groupLabel with
    | some n => some (if n ≤ applicantYears then "yes" else "no")
    | none => none

/-- One standard radio input inside a fieldset: its label text (or `value`
attribute) and whether it is currently checked. -/
structure RadioOption where
  labelText : String
  checked : Bool
deriving DecidableEq

/-- One fieldset with standard `<input type="radio">` options (the fallback
branch of the JS pass, taken when there are no custom selectable labels). -/
structure RadioGroup where
  legend : String
  options : List RadioOption
deriving DecidableEq

/-- `radio.click()`: checking option `i` unchecks every other option of the
group. -/
def clickRadio (g : RadioGroup) (i : Nat) : RadioGroup :=
  { g with
    options := (g.options.zip (List.range g.options.length)).map
      (fun p => { p.1 with checked := decide (p.2 = i) }) }

/-- The radio text / match-value comparison of the JS pass:
`matchValue.includes(rText) || rText.includes(matchValue)`. -/
def radioOptionMatches (matchValue : String) (o : RadioOption) : Bool :=
  let rText := lcStr (pyStrip o.labelText.data)
  containsSub matchValue.data rText || containsSub rText matchValue.data

/-- The JS pass of `_fill_radio_buttons` on one fieldset with standard
radios: compute `matchValue` from the legend and click the first matching
radio.  The pass performs no already-checked test before clicking. -/
def radioJsPassGroup (responses : List (String × String)) (applicantYears : Nat)
    (g : RadioGroup) : RadioGroup :=
  match radioGroupAnswer responses g.legend applicantYears with
  | none => g
  | some mv =>
    match g.options.findIdx? (radioOptionMatches mv) with
    | some i => clickRadio g i
    | none => g

/-- A radio group "already has a selected option". -/
def groupHasSelection (g : RadioGroup) : Bool :=
  g.options.any (fun o => o.checked)

/-! ### Filter chain (`evaluation/filter_chain.py`) and the pipeline's
filtering step (`orchestrator.py`) -/

/-- `CompanyBlockFilter.__init__`: strip each configured term, drop the ones
that are empty after stripping, lowercase the rest. -/
def normBlockedTerms (blocked : List String) : List (List Char) :=
  (blocked.filter (fun c => !(pyStrip c.data).isEmpty)).map
    (fun c => lcStr (pyStrip c.data))

/-- `CompanyBlockFilter._check`: first normalised term contained in the
lowercased company name yields `"blocked_company:<term>"`. -/
def companyBlockCheck (blocked : List String) (p : JobPosting) : Option String :=
  let companyLower := lcStr p.company.data
  (((normBlockedTerms blocked).find? (fun t => containsSub companyLower t))).map
    (fun t => "blocked_company:" ++ (⟨t⟩ : String))

/-- `TitleBlockFilter._check`. -/
def titleBlockCheck (blocked : List String) (p : JobPosting) : Option String :=
  let titleLower := lcStr p.title.data
  (((normBlockedTerms blocked).find? (fun t => containsSub titleLower t))).map
    (fun t => "blocked_title:" ++ (⟨t⟩ : String))

/-- `build_filter_chain` + `PostingFilter.evaluate`: company filter first
(present only when the blocked-company list is non-empty), then the title
filter; first rejection reason wins, `none` accepts. -/
def filterChainReason (blockedCompanies blockedTitles : List String)
    (p : JobPosting) : Option String :=
  match (if blockedCompanies.isEmpty then none else companyBlockCheck blockedCompanies p) with
  | some r => some r
  | none => if blockedTitles.isEmpty then none else titleBlockCheck blockedTitles p

/-- The stages of `_process_single_posting` after detail extraction, given
the filter decision: Easy Apply lookup, Easy Apply click, then the form
handler.  The second component records whether `attempt_submission` was
started. -/
def applyStage (easyApplyFound clickOk simulation : Bool) (pages : Nat → PageView) :
    Outcome × Bool :=
  if !easyApplyFound then (Outcome.skipped_duplicate, false)
  else if !clickOk then (Outcome.failed, false)
  else
    match (attemptSubmission simulation pages).res with
    | .ok .succeeded => (Outcome.succeeded, true)
    | .ok .dry_run => (Outcome.dry_run, true)
    | .err _ => (Outcome.failed, true)

/-- `_process_single_posting` from the filter step on: a truthy (non-empty)
rejection reason records `skipped_blacklist` and returns before any
submission work. -/
def processSinglePosting (blockedCompanies blockedTitles : List String)
    (p : JobPosting) (easyApplyFound clickOk simulation : Bool)
    (pages : Nat → PageView) : Outcome × Bool :=
  match filterChainReason blockedCompanies blockedTitles p with
  | some r =>
    if r = "" then applyStage easyApplyFound clickOk simulation pages
    else (Outcome.skipped_blacklist, false)
  | none => applyStage easyApplyFound clickOk simulation pages

/-! ## Helper lemmas about the tracker -/

theorem countP_rowMatches_eq_zero {l : List (Nat × JobPosting)} {pl pid : String}
    (h : l.find? (rowMatches pl pid) = none) :
    l.countP (rowMatches pl pid) = 0 :=
  List.countP_eq_zero.mpr (by simpa using List.find?_eq_none.mp h)

theorem countP_rowMatches_eq_one_of_wf :
    ∀ (l : List (Nat × JobPosting)) (pl pid : String) (row : Nat × JobPosting),
      distinctIdentities l = true → l.find? (rowMatches pl pid) = some row →
      l.countP (rowMatches pl pid) = 1 := by
  intro l
  induction l with
  | nil =>
    intro pl pid row _ h
    simp [List.find?] at h
  | cons r rest ih =>
    intro pl pid row hwf hfind
    simp only [distinctIdentities, Bool.and_eq_true, List.all_eq_true] at hwf
    by_cases hp : rowMatches pl pid r = true
    · rw [List.countP_cons, if_pos hp]
      have hz : rest.countP (rowMatches pl pid) = 0 := by
        apply List.countP_eq_zero.mpr
        intro s hs hs'
        have e1 : s.2.platform = pl ∧ s.2.platform_id = pid := by
          simpa [rowMatches, beq_iff_eq] using hs'
        have e2 : r.2.platform = pl ∧ r.2.platform_id = pid := by
          simpa [rowMatches, beq_iff_eq] using hp
        have hdiff := hwf.1 s hs
        rw [Bool.not_eq_eq_eq_not, Bool.not_true] at hdiff
        have hcon : (s.2.platform == r.2.platform && s.2.platform_id == r.2.platform_id) = true := by
          simp [beq_iff_eq, e1.1.trans e2.1.symm, e1.2.trans e2.2.symm]
        rw [hdiff] at hcon
        exact Bool.false_ne_true hcon
      rw [hz]
    · rw [List.countP_cons, if_neg hp]
      rw [List.find?_cons_of_neg _ hp] at hfind
      simpa using ih pl pid row hwf.2 hfind

theorem distinctIdentities_append_singleton (x : Nat × JobPosting) :
    ∀ l : List (Nat × JobPosting), distinctIdentities l = true →
      (∀ r ∈ l, rowMatches x.2.platform x.2.platform_id r = false) →
      distinctIdentities (l ++ [x]) = true := by
  intro l
  induction l with
  | nil =>
    intro _ _
    simp [distinctIdentities]
  | cons r rest ih =>
    intro hwf hx
    simp only [distinctIdentities, Bool.and_eq_true, List.all_eq_true] at hwf
    simp only [List.cons_append, distinctIdentities, Bool.and_eq_true, List.all_eq_true]
    refine ⟨?_, ih hwf.2 (fun s hs => hx s (List.mem_cons_of_mem _ hs))⟩
    intro s hs
    rcases List.mem_append.mp hs with hs | hs
    · exact hwf.1 s hs
    · rw [List.mem_singleton] at hs
      subst hs
      have h0 := hx r (List.mem_cons_self r rest)
      by_contra hcon
      rw [Bool.not_eq_true, Bool.not_eq_eq_eq_not, Bool.not_false] at hcon
      obtain ⟨e1, e2⟩ : s.2.platform = r.2.platform ∧ s.2.platform_id = r.2.platform_id := by
        simpa [beq_iff_eq] using hcon
      have hmatch : rowMatches s.2.platform s.2.platform_id r = true := by
        simp only [rowMatches, Bool.and_eq_true, beq_iff_eq]
        exact ⟨e1.symm, e2.symm⟩
      rw [h0] at hmatch
      exact Bool.false_ne_true hmatch

/-! ## C10 and C6: `upsert_posting` -/

/-- C10: when a posting's `(platform, platform_id)` identity already exists in
the `postings` table, `upsert_posting` returns the existing row id and leaves
the database — every row and every column — completely unchanged, regardless
of the other fields carried by the incoming posting. -/
theorem upsert_existing_frame (db : TrackerDB) (p : JobPosting) (j : Nat)
    (h : findPosting db p.platform p.platform_id = some j) :
    upsert_posting db p = (j, db) := by
  unfold upsert_posting
  rw [h]

def frameDbRow : JobPosting :=
  { platform := "linkedin", platform_id := "42", url := "https://x/42",
    title := "Engineer", company := "Acme", location_label := "Berlin" }

def frameDb : TrackerDB := ⟨[(7, frameDbRow)], 8⟩

def frameRediscovered : JobPosting :=
  { platform := "linkedin", platform_id := "42", url := "https://y/42",
    title := "Sr Engineer", company := "Acme GmbH", location_label := "Remote" }

/-- Witness for C10 at a concrete database: a re-discovered posting with
different title/company/url leaves the stored row untouched. -/
theorem upsert_existing_frame_witness :
    upsert_posting frameDb frameRediscovered = (7, frameDb) :=
  upsert_existing_frame frameDb frameRediscovered 7 (by decide)

/-- C6: under the schema's `UNIQUE(platform, platform_id)` invariant, two
`upsert_posting` calls with postings sharing one identity return the same row
id, leave exactly one row with that identity, and preserve the uniqueness
invariant — no duplicate row is ever created. -/
theorem upsert_twice_same_identity (db : TrackerDB) (p q : JobPosting)
    (hwf : distinctIdentities db.rows = true)
    (hplat : q.platform = p.platform) (hpid : q.platform_id = p.platform_id) :
    (upsert_posting (upsert_posting db p).2 q).1 = (upsert_posting db p).1 ∧
    countIdentity (upsert_posting (upsert_posting db p).2 q).2 p.platform p.platform_id = 1 ∧
    distinctIdentities (upsert_posting (upsert_posting db p).2 q).2.rows = true := by
  cases hf : findPosting db p.platform p.platform_id with
  | some i =>
    have h1 : upsert_posting db p = (i, db) := by
      unfold upsert_posting
      rw [hf]
    have hq : findPosting db q.platform q.platform_id = some i := by
      rw [hplat, hpid]
      exact hf
    have h2 : upsert_posting db q = (i, db) := by
      unfold upsert_posting
      rw [hq]
    rw [h1, h2]
    refine ⟨rfl, ?_, hwf⟩
    obtain ⟨row, hrow, _⟩ := Option.map_eq_some'.mp hf
    exact countP_rowMatches_eq_one_of_wf db.rows _ _ row hwf hrow
  | none =>
    have hfind0 : db.rows.find? (rowMatches p.platform p.platform_id) = none :=
      Option.map_eq_none'.mp hf
    have h1 : upsert_posting db p =
        (db.nextId, ⟨db.rows ++ [(db.nextId, p)], db.nextId + 1⟩) := by
      unfold upsert_posting
      rw [hf]
    have hnew : rowMatches p.platform p.platform_id (db.nextId, p) = true := by
      simp [rowMatches]
    have hq : findPosting ⟨db.rows ++ [(db.nextId, p)], db.nextId + 1⟩
        q.platform q.platform_id = some db.nextId := by
      unfold findPosting
      simp only [hplat, hpid, List.find?_append, hfind0]
      simp [List.find?, hnew]
    have h2 : upsert_posting ⟨db.rows ++ [(db.nextId, p)], db.nextId + 1⟩ q =
        (db.nextId, ⟨db.rows ++ [(db.nextId, p)], db.nextId + 1⟩) := by
      unfold upsert_posting
      rw [hq]
    rw [h1, h2]
    refine ⟨rfl, ?_, ?_⟩
    · unfold countIdentity
      simp only [List.countP_append, countP_rowMatches_eq_zero hfind0]
      simp [List.countP_cons, hnew]
    · refine distinctIdentities_append_singleton (db.nextId, p) db.rows hwf ?_
      intro r hr
      have := List.find?_eq_none.mp hfind0 r hr
      simpa using this

def freshDb : TrackerDB := ⟨[], 1⟩

def freshPosting : JobPosting :=
  { platform := "linkedin", platform_id := "99", url := "https://x/99",
    title := "Dev", company := "Initech" }

def freshPostingAgain : JobPosting :=
  { platform := "linkedin", platform_id := "99", url := "https://x/99-b",
    title := "Developer", company := "Initech Ltd" }

/-- Witness for C6 at a concrete database. -/
theorem upsert_twice_same_identity_witness :
    (upsert_posting (upsert_posting freshDb freshPosting).2 freshPostingAgain).1 =
      (upsert_posting freshDb freshPosting).1 ∧
    countIdentity (upsert_posting (upsert_posting freshDb freshPosting).2 freshPostingAgain).2
      freshPosting.platform freshPosting.platform_id = 1 :=
  ⟨(upsert_twice_same_identity freshDb freshPosting freshPostingAgain
      (by decide) (by decide) (by decide)).1,
   (upsert_twice_same_identity freshDb freshPosting freshPostingAgain
      (by decide) (by decide) (by decide)).2.1⟩

/-! ## C9: submission cap -/

theorem runSearchJobs_no_cap (cap : Int) (hcap : cap ≤ 0) :
    ∀ (os : List Outcome) (s : Nat), runSearchJobs cap s os = some (s + countSucceeded os) := by
  intro os
  induction os with
  | nil =>
    intro s
    simp [runSearchJobs, countSucceeded]
  | cons o rest ih =>
    intro s
    have hc : checkCap cap s = false := by
      simp only [checkCap, Bool.and_eq_false_iff, decide_eq_false_iff_not, not_lt]
      exact Or.inl hcap
    simp only [runSearchJobs, hc, Bool.false_eq_true, if_false, ih]
    congr 1
    simp only [countSucceeded, List.countP_cons, updateSubmitted]
    by_cases h : o = Outcome.succeeded
    · simp [h]
      omega
    · simp [h]

theorem runSearchJobs_none_iff (cap : Int) :
    ∀ (os : List Outcome) (s : Nat),
      runSearchJobs cap s os = none ↔
        0 < cap ∧ ∃ k < os.length, cap ≤ ((s + countSucceeded (os.take k) : Nat) : Int) := by
  intro os
  induction os with
  | nil =>
    intro s
    simp [runSearchJobs]
  | cons o rest ih =>
    intro s
    by_cases hc : checkCap cap s = true
    · obtain ⟨hpos, hle⟩ : 0 < cap ∧ cap ≤ (s : Int) := by
        simpa only [checkCap, Bool.and_eq_true, decide_eq_true_eq] using hc
      simp only [runSearchJobs, hc, if_true]
      constructor
      · intro _
        exact ⟨hpos, 0, by simp, by simpa [countSucceeded] using hle⟩
      · intro _
        trivial
    · rw [Bool.not_eq_true] at hc
      have hcount : ∀ k, countSucceeded ((o :: rest).take (k + 1)) =
          countSucceeded (rest.take k) + (if o = Outcome.succeeded then 1 else 0) := by
        intro k
        simp only [List.take_succ_cons, countSucceeded, List.countP_cons]
        by_cases h : o = Outcome.succeeded <;> simp [h]
      have hstep : ∀ k, (s + countSucceeded ((o :: rest).take (k + 1)) : Nat) =
          (updateSubmitted s o + countSucceeded (rest.take k) : Nat) := by
        intro k
        rw [hcount]
        unfold updateSubmitted
        by_cases h : o = Outcome.succeeded
        · simp [h]
          omega
        · simp [h]
      simp only [runSearchJobs, hc, Bool.false_eq_true, if_false, ih]
      constructor
      · rintro ⟨hpos, k, hk, hle⟩
        refine ⟨hpos, k + 1, by simpa using Nat.succ_lt_succ hk, ?_⟩
        rw [hstep k]
        exact hle
      · rintro ⟨hpos, k, hk, hle⟩
        cases k with
        | zero =>
          exfalso
          have : checkCap cap s = true := by
            simp only [checkCap, Bool.and_eq_true, decide_eq_true_eq]
            exact ⟨hpos, by simpa [countSucceeded] using hle⟩
          rw [hc] at this
          exact Bool.false_ne_true this
        | succ k =>
          refine ⟨hpos, k, by simpa using Nat.lt_of_succ_lt_succ hk, ?_⟩
          rw [hstep k] at hle
          exact hle

/-- C9: `CapReachedError` is raised before processing a posting exactly when
the configured cap is strictly positive and the number of attempts with
outcome `succeeded` so far has reached it; a cap `≤ 0` disables the check,
and `dry_run` / `failed` / skipped outcomes never advance the counter. -/
theorem cap_reached_spec (cap : Int) (os : List Outcome) :
    (∀ s : Nat, checkCap cap s = true ↔ 0 < cap ∧ cap ≤ (s : Int)) ∧
    (cap ≤ 0 → runSearchJobs cap 0 os = some (countSucceeded os)) ∧
    (runSearchJobs cap 0 os = none ↔
      0 < cap ∧ ∃ k < os.length, cap ≤ (countSucceeded (os.take k) : Int)) ∧
    (∀ (s : Nat) (o : Outcome), o ≠ Outcome.succeeded → updateSubmitted s o = s) ∧
    (∀ s : Nat, updateSubmitted s Outcome.succeeded = s + 1) := by
  refine ⟨?_, ?_, ?_, ?_, ?_⟩
  · intro s
    simp [checkCap]
  · intro hcap
    simpa using runSearchJobs_no_cap cap hcap os 0
  · simpa using runSearchJobs_none_iff cap os 0
  · intro s o h
    simp [updateSubmitted, h]
  · intro s
    simp [updateSubmitted]

/-- Witness for C9: with cap 2, the run is cut off before the fourth posting
(two successes recorded), and a non-positive cap never stops the run. -/
theorem cap_reached_spec_witness :
    runSearchJobs 2 0 [Outcome.succeeded, Outcome.dry_run, Outcome.succeeded, Outcome.failed]
      = none ∧
    runSearchJobs (-1) 0 [Outcome.succeeded, Outcome.failed] = some 1 := by
  constructor
  · exact (cap_reached_spec 2
      [Outcome.succeeded, Outcome.dry_run, Outcome.succeeded, Outcome.failed]).2.2.1.mpr
      ⟨by norm_num, 3, by norm_num, by decide⟩
  · have h := (cap_reached_spec (-1) [Outcome.succeeded, Outcome.failed]).2.1 (by norm_num)
    simpa using h

/-! ## C7: interaction-port error contract -/

/-- C7: the adapter's `query` never propagates a failure — a page error or a
missing element yields `None` (and `query_all` yields `[]` when both the
original call and the post-recovery retry fail) — whereas `fill` and `click`
on an explicit selector return the raw page call unchanged, so element-missing
and page failures propagate to the caller. -/
theorem port_error_contract (p : PageProbe) (q1 q2 : QueryAllProbe) :
    (p.pageError = true → adapterQuery p = none) ∧
    (p.found = none → adapterQuery p = none) ∧
    (∀ h, p.found = some h → p.pageError = false → adapterQuery p = some h) ∧
    adapterFill p = pageFillRaw p ∧
    adapterClick p = pageClickRaw p ∧
    (p.found = none ∨ p.pageError = true → adapterFill p = .err ∧ adapterClick p = .err) ∧
    (q1.pageError = true → q2.pageError = true → adapterQueryAll q1 q2 = []) := by
  refine ⟨?_, ?_, ?_, rfl, rfl, ?_, ?_⟩
  · intro h
    simp [adapterQuery, waitForSelectorRaw, h]
  · intro h
    simp only [adapterQuery, waitForSelectorRaw, h]
    cases p.pageError <;> simp
  · intro h hfound herr
    simp [adapterQuery, waitForSelectorRaw, herr, hfound]
  · rintro (h | h)
    · constructor <;> simp only [adapterFill, adapterClick, pageFillRaw, pageClickRaw, h] <;>
        cases p.pageError <;> simp
    · constructor <;> simp [adapterFill, adapterClick, pageFillRaw, pageClickRaw, h]
  · intro h1 h2
    simp [adapterQueryAll, queryAllRaw, h1, h2]

/-- Witness for C7: a timed-out query returns `None` while the same probe
makes `fill` throw. -/
theorem port_error_contract_witness :
    adapterQuery ⟨none, false⟩ = none ∧
    adapterFill ⟨none, false⟩ = .err ∧
    adapterQueryAll ⟨[], true⟩ ⟨[], true⟩ = [] := by
  refine ⟨?_, ?_, ?_⟩
  · exact (port_error_contract ⟨none, false⟩ ⟨[], true⟩ ⟨[], true⟩).2.1 rfl
  · exact ((port_error_contract ⟨none, false⟩ ⟨[], true⟩ ⟨[], true⟩).2.2.2.2.2.1
      (Or.inl rfl)).1
  · exact (port_error_contract ⟨none, false⟩ ⟨[], true⟩ ⟨[], true⟩).2.2.2.2.2.2 rfl rfl

/-! ## C1 and C2: form-navigation state machine -/

theorem navigateMultiStep_bound_spec (simulation : Bool) (env : Nat → PageView) :
    ∀ fuel pos,
      (navigateMultiStep simulation env pos fuel).steps ≤ fuel ∧
      ((navigateMultiStep simulation env pos fuel).boundHit = true →
        (navigateMultiStep simulation env pos fuel).res =
          (if simulation then .ok .dry_run else .err .maxStepsExceeded)) := by
  intro fuel
  induction fuel with
  | zero =>
    intro pos
    simp [navigateMultiStep]
  | succ fuel ih =>
    intro pos
    cases hS : (env pos).hasSubmit with
    | true =>
      constructor
      · simp [navigateMultiStep, hS]
      · simp [navigateMultiStep, hS]
    | false =>
      cases hR : (env pos).hasReview with
      | true =>
        have h := ih (pos + 1)
        constructor
        · simp only [navigateMultiStep, hS, hR]
          simpa using Nat.succ_le_succ h.1
        · simp only [navigateMultiStep, hS, hR]
          simpa using h.2
      | false =>
        cases hN : (env pos).hasNext with
        | true =>
          have h := ih (pos + 1)
          constructor
          · simp only [navigateMultiStep, hS, hR, hN]
            simpa using Nat.succ_le_succ h.1
          · simp only [navigateMultiStep, hS, hR, hN]
            simpa using h.2
        | false =>
          cases hJ : (env pos).jsBottomFinds with
          | true =>
            have h := ih (pos + 1)
            constructor
            · simp only [navigateMultiStep, hS, hR, hN, hJ]
              simpa using Nat.succ_le_succ h.1
            · simp only [navigateMultiStep, hS, hR, hN, hJ]
              simpa using h.2
          | false =>
            constructor
            · simp [navigateMultiStep, hS, hR, hN, hJ]
            · simp [navigateMultiStep, hS, hR, hN, hJ]

/-- C1: the multi-step loop never executes more than `_MAX_FORM_STEPS = 10`
iterations, and the bound-exhausted path resolves to `dry_run` in simulation
mode and to a raised `FormSubmissionError` (max steps exceeded) otherwise —
it can never resolve to `succeeded`. -/
theorem multi_step_bound (simulation : Bool) (env : Nat → PageView) (pos : Nat) :
    maxFormSteps = 10 ∧
    (navigateMultiStep simulation env pos maxFormSteps).steps ≤ 10 ∧
    ((navigateMultiStep simulation env pos maxFormSteps).boundHit = true →
      (simulation = true →
        (navigateMultiStep simulation env pos maxFormSteps).res = .ok .dry_run) ∧
      (simulation = false →
        (navigateMultiStep simulation env pos maxFormSteps).res = .err .maxStepsExceeded) ∧
      (navigateMultiStep simulation env pos maxFormSteps).res ≠ .ok .succeeded) := by
  have h := navigateMultiStep_bound_spec simulation env maxFormSteps pos
  refine ⟨rfl, h.1, fun hb => ?_⟩
  have hres := h.2 hb
  cases simulation with
  | true =>
    rw [if_pos rfl] at hres
    refine ⟨fun _ => hres, ?_, ?_⟩
    · intro hfalse
      exact absurd hfalse (by simp)
    · simp [hres]
  | false =>
    rw [if_neg (by simp)] at hres
    refine ⟨?_, fun _ => hres, ?_⟩
    · intro htrue
      exact absurd htrue (by simp)
    · simp [hres]

def envNextForever : Nat → PageView :=
  fun _ => ⟨false, false, true, false, false, false, false⟩

/-- Witness for C1: a form that always shows only a Next button exhausts the
bound after exactly 10 steps and resolves to `dry_run` under simulation. -/
theorem multi_step_bound_witness :
    (navigateMultiStep true envNextForever 0 maxFormSteps).steps ≤ 10 ∧
    (navigateMultiStep true envNextForever 0 maxFormSteps).res = .ok .dry_run := by
  have h := multi_step_bound true envNextForever 0
  exact ⟨h.2.1, (h.2.2 (by decide)).1 rfl⟩

theorem submitFinal_sim (v : PageView) : submitFinal true v = (.ok .dry_run, []) := rfl

theorem submitFinal_no_sim_cases (v : PageView) :
    (submitFinal false v).1 = .ok .succeeded ∨
      (submitFinal false v).1 = .err .submitNotClickable := by
  unfold submitFinal
  by_cases h1 : v.submitDirectOk = true
  · simp [h1]
  · by_cases h2 : v.submitForceOk = true
    · simp [h1, h2]
    · by_cases h3 : v.submitJsFindOk = true
      · simp [h1, h2, h3]
      · simp [h1, h2, h3]

theorem navigateMultiStep_sim_clicks (env : Nat → PageView) :
    ∀ fuel pos, (navigateMultiStep true env pos fuel).clicks = [] := by
  intro fuel
  induction fuel with
  | zero =>
    intro pos
    simp [navigateMultiStep]
  | succ fuel ih =>
    intro pos
    cases hS : (env pos).hasSubmit with
    | true => simp [navigateMultiStep, hS, submitFinal]
    | false =>
      cases hR : (env pos).hasReview with
      | true => simpa only [navigateMultiStep, hS, hR] using ih (pos + 1)
      | false =>
        cases hN : (env pos).hasNext with
        | true => simpa only [navigateMultiStep, hS, hR, hN] using ih (pos + 1)
        | false =>
          cases hJ : (env pos).jsBottomFinds with
          | true => simpa only [navigateMultiStep, hS, hR, hN, hJ] using ih (pos + 1)
          | false => simp [navigateMultiStep, hS, hR, hN, hJ]

theorem navigateMultiStep_no_sim_not_dry_run (env : Nat → PageView) :
    ∀ fuel pos, (navigateMultiStep false env pos fuel).res ≠ .ok .dry_run := by
  intro fuel
  induction fuel with
  | zero =>
    intro pos
    simp [navigateMultiStep]
  | succ fuel ih =>
    intro pos
    cases hS : (env pos).hasSubmit with
    | true =>
      simp only [navigateMultiStep, hS]
      rcases submitFinal_no_sim_cases (env pos) with h | h <;> simp [h]
    | false =>
      cases hR : (env pos).hasReview with
      | true => simpa only [navigateMultiStep, hS, hR] using ih (pos + 1)
      | false =>
        cases hN : (env pos).hasNext with
        | true => simpa only [navigateMultiStep, hS, hR, hN] using ih (pos + 1)
        | false =>
          cases hJ : (env pos).jsBottomFinds with
          | true => simpa only [navigateMultiStep, hS, hR, hN, hJ] using ih (pos + 1)
          | false => simp [navigateMultiStep, hS, hR, hN, hJ]

theorem attemptSubmission_sim_clicks (env : Nat → PageView) :
    (attemptSubmission true env).clicks = [] := by
  unfold attemptSubmission
  by_cases h0 : (env 0).hasSubmit = true
  · simp [h0, submitFinal]
  · simp only [h0]
    by_cases h1 : (env (if (env 0).hasNext then 1 else 0)).hasSubmit = true
    · simp [h0, h1, submitFinal]
    · simp [h0, h1, navigateMultiStep_sim_clicks]

theorem attemptSubmission_no_sim_not_dry_run (env : Nat → PageView) :
    (attemptSubmission false env).res ≠ .ok .dry_run := by
  unfold attemptSubmission
  by_cases h0 : (env 0).hasSubmit = true
  · simp only [h0, if_true]
    rcases submitFinal_no_sim_cases (env 0) with h | h <;> simp [h]
  · simp only [h0]
    by_cases h1 : (env (if (env 0).hasNext then 1 else 0)).hasSubmit = true
    · simp only [h0, h1, Bool.false_eq_true, if_false, if_true]
      rcases submitFinal_no_sim_cases (env (if (env 0).hasNext then 1 else 0)) with h | h <;>
        simp [h]
    · simp only [h0, h1, Bool.false_eq_true, if_false]
      exact navigateMultiStep_no_sim_not_dry_run env maxFormSteps _

/-- C2: under simulation none of the three submit-click strategies is ever
invoked; `dry_run` is returned only when the simulation flag is true; and
with simulation off `attempt_submission` either returns `succeeded` or raises
`FormSubmissionError`. -/
theorem simulation_no_submit_clicks (simulation : Bool) (env : Nat → PageView) :
    (simulation = true → (attemptSubmission simulation env).clicks = []) ∧
    ((attemptSubmission simulation env).res = .ok .dry_run → simulation = true) ∧
    (simulation = false →
      (attemptSubmission simulation env).res = .ok .succeeded ∨
        ∃ e, (attemptSubmission simulation env).res = .err e) := by
  refine ⟨?_, ?_, ?_⟩
  · intro h
    subst h
    exact attemptSubmission_sim_clicks env
  · intro h
    cases simulation with
    | true => rfl
    | false => exact absurd h (attemptSubmission_no_sim_not_dry_run env)
  · intro h
    subst h
    cases hres : (attemptSubmission false env).res with
    | ok o =>
      cases o with
      | succeeded => exact Or.inl rfl
      | dry_run => exact absurd hres (attemptSubmission_no_sim_not_dry_run env)
    | err e => exact Or.inr ⟨e, rfl⟩

def envSinglePageSubmit : Nat → PageView :=
  fun _ => ⟨true, false, false, false, true, true, true⟩

/-- Witness for C2: a single-page form with a visible Submit control under
simulation yields `dry_run` with no submit-click strategy invoked. -/
theorem simulation_no_submit_clicks_witness :
    (attemptSubmission true envSinglePageSubmit).clicks = [] ∧
    (attemptSubmission true envSinglePageSubmit).res = .ok .dry_run ∧
    (attemptSubmission false envSinglePageSubmit).res = .ok .succeeded := by
  refine ⟨(simulation_no_submit_clicks true envSinglePageSubmit).1 rfl, by decide, ?_⟩
  rcases (simulation_no_submit_clicks false envSinglePageSubmit).2.2 rfl with h | ⟨e, h⟩
  · exact h
  · have hok : (attemptSubmission false envSinglePageSubmit).res = .ok .succeeded := by decide
    rw [hok] at h
    exact FormResult.noConfusion h

/-! ## C4: interactive login protocol -/

theorem loginPolls_err_kind (env : LoginEnv) :
    ∀ fuel i e, loginPolls env i fuel = .err e → e = .loginTimeout := by
  intro fuel
  induction fuel with
  | zero =>
    intro i e h
    simp only [loginPolls] at h
    injection h with h'
    exact h'.symm
  | succ fuel ih =>
    intro i e h
    simp only [loginPolls] at h
    by_cases hs : loginSignal env i = true
    · rw [if_pos hs] at h
      exact absurd h (by simp)
    · rw [if_neg hs] at h
      exact ih (i + 1) e h

theorem loginPolls_spec (env : LoginEnv) :
    ∀ fuel i,
      (loginPolls env i fuel = .err .loginTimeout ↔
        ∀ k < fuel, loginSignal env (i + k) = false) ∧
      (∀ j, loginPolls env i fuel = .ok j ↔
        i ≤ j ∧ j < i + fuel ∧ loginSignal env j = true ∧
          ∀ m, i ≤ m → m < j → loginSignal env m = false) := by
  intro fuel
  induction fuel with
  | zero =>
    intro i
    constructor
    · simp [loginPolls]
    · intro j
      simp only [loginPolls]
      constructor
      · intro h
        exact absurd h (by simp)
      · rintro ⟨h1, h2, -⟩
        omega
  | succ fuel ih =>
    intro i
    by_cases hs : loginSignal env i = true
    · constructor
      · simp only [loginPolls, hs, if_true]
        constructor
        · intro h
          exact absurd h (by simp)
        · intro hall
          have h0 := hall 0 (Nat.succ_pos fuel)
          rw [Nat.add_zero, hs] at h0
          exact absurd h0 (by simp)
      · intro j
        simp only [loginPolls, hs, if_true]
        constructor
        · intro h
          have hj : i = j := by injection h
          subst hj
          exact ⟨Nat.le_refl i, by omega, hs, fun m hm1 hm2 => absurd (Nat.lt_of_le_of_lt hm1 hm2) (Nat.lt_irrefl i)⟩
        · rintro ⟨h1, h2, h3, hmin⟩
          by_cases hj : j = i
          · subst hj
            rfl
          · exfalso
            have hlt : i < j := Nat.lt_of_le_of_ne h1 (Ne.symm hj)
            have := hmin i (Nat.le_refl i) hlt
            rw [hs] at this
            exact absurd this (by simp)
    · rw [Bool.not_eq_true] at hs
      have h' := ih (i + 1)
      constructor
      · simp only [loginPolls, hs, Bool.false_eq_true, if_false]
        rw [h'.1]
        constructor
        · intro hall k hk
          cases k with
          | zero =>
            simpa using hs
          | succ k =>
            have hstep := hall k (by omega)
            have heq : i + 1 + k = i + (k + 1) := by omega
            rw [heq] at hstep
            exact hstep
        · intro hall k hk
          have hstep := hall (k + 1) (by omega)
          have heq : i + (k + 1) = i + 1 + k := by omega
          rw [heq] at hstep
          exact hstep
      · intro j
        simp only [loginPolls, hs, Bool.false_eq_true, if_false]
        rw [h'.2 j]
        constructor
        · rintro ⟨h1, h2, h3, hmin⟩
          refine ⟨by omega, by omega, h3, ?_⟩
          intro m hm1 hm2
          by_cases hmi : m = i
          · subst hmi
            exact hs
          · exact hmin m (by omega) hm2
        · rintro ⟨h1, h2, h3, hmin⟩
          have hij : i ≠ j := by
            intro e
            subst e
            rw [hs] at h3
            exact absurd h3 (by simp)
          refine ⟨by omega, by omega, h3, ?_⟩
          intro m hm1 hm2
          exact hmin m (by omega) hm2

/-- C4: `_perform_login` raises `AuthenticationError` exactly when the email
or password is unconfigured or none of the 18 polls saw a success signal (URL
containing `/feed` or a logged-in DOM marker); it returns normally at the
first poll that sees either signal. -/
theorem perform_login_spec (email password : String) (env : LoginEnv) :
    ((∃ e, performLogin email password env = .err e) ↔
      email = "" ∨ password = "" ∨
        ∀ i < 18, env.feedAt i = false ∧ env.markerAt i = false) ∧
    (∀ j, performLogin email password env = .ok j →
      j < 18 ∧ (env.feedAt j = true ∨ env.markerAt j = true) ∧
        ∀ i < j, env.feedAt i = false ∧ env.markerAt i = false) := by
  constructor
  · constructor
    · rintro ⟨e, he⟩
      by_cases h1 : email = ""
      · exact Or.inl h1
      by_cases h2 : password = ""
      · exact Or.inr (Or.inl h2)
      refine Or.inr (Or.inr ?_)
      have hrun : performLogin email password env = loginPolls env 0 18 := by
        simp [performLogin, h1, h2]
      rw [hrun] at he
      have hkind := loginPolls_err_kind env 18 0 e he
      subst hkind
      have hall := ((loginPolls_spec env 18 0).1).mp he
      intro i hi
      have := hall i hi
      rw [Nat.zero_add] at this
      simpa [loginSignal] using this
    · rintro (h1 | h2 | hall)
      · exact ⟨.missingCredentials, by simp [performLogin, h1]⟩
      · exact ⟨.missingCredentials, by simp [performLogin, h2]⟩
      · by_cases h1 : email = ""
        · exact ⟨.missingCredentials, by simp [performLogin, h1]⟩
        by_cases h2 : password = ""
        · exact ⟨.missingCredentials, by simp [performLogin, h2]⟩
        refine ⟨.loginTimeout, ?_⟩
        have hrun : performLogin email password env = loginPolls env 0 18 := by
          simp [performLogin, h1, h2]
        rw [hrun, (loginPolls_spec env 18 0).1]
        intro k hk
        have := hall k hk
        simp [loginSignal, this.1, this.2]
  · intro j hj
    by_cases h1 : email = ""
    · rw [show performLogin email password env = .err .missingCredentials by
        simp [performLogin, h1]] at hj
      exact absurd hj (by simp)
    by_cases h2 : password = ""
    · rw [show performLogin email password env = .err .missingCredentials by
        simp [performLogin, h2]] at hj
      exact absurd hj (by simp)
    have hrun : performLogin email password env = loginPolls env 0 18 := by
      simp [performLogin, h1, h2]
    rw [hrun] at hj
    obtain ⟨-, hlt, hsig, hmin⟩ := ((loginPolls_spec env 18 0).2 j).mp hj
    refine ⟨by omega, ?_, ?_⟩
    · simpa [loginSignal] using hsig
    · intro i hi
      have := hmin i (Nat.zero_le i) hi
      simpa [loginSignal] using this

def loginEnvW : LoginEnv := ⟨fun i => decide (i = 2), fun _ => false⟩

/-- Witness for C4: with configured credentials and the `/feed` URL appearing
at the third poll, login returns at that poll and no earlier one saw a
signal. -/
theorem perform_login_spec_witness :
    2 < 18 ∧ (loginEnvW.feedAt 2 = true ∨ loginEnvW.markerAt 2 = true) ∧
      ∀ i < 2, loginEnvW.feedAt i = false ∧ loginEnvW.markerAt i = false :=
  (perform_login_spec "user@example.com" "hunter2" loginEnvW).2 2 (by decide)

/-! ## C3: years-of-experience heuristic -/

def countryYearsLabel : String :=
  "In which country did you gain your 5 years of experience?"

/-- C3 counterexample: this label matches the years pattern (required years
5) and matches no response key, yet because it contains `"country"` the
dropdown pass takes the country special case and selects `India` instead of
answering via the `required ≤ applicant` comparison (applicant years 7 would
demand `Yes`). -/
theorem experience_heuristic_country_cex :
    findExpYears (lcStr (pyStrip countryYearsLabel.data)) = some 5 ∧
    dropdownDecision [] countryYearsLabel 7 = .selectCountry "India" ∧
    dropdownDecision [] countryYearsLabel 7 ≠ .selectValue "Yes" := by
  refine ⟨by decide, by decide, by decide⟩

/-- C3 (amended): for a label that matches the years pattern with required
years `n`, matches no response key, and (for the dropdown pass) does not
contain a country/nation marker, both passes answer yes exactly when
`n ≤ applicantYears` and no otherwise. -/
theorem experience_heuristic_answer (responses : List (String × String))
    (label : String) (applicantYears n : Nat)
    (hnokey : ∀ kv ∈ responses,
      containsSub (lcStr (pyStrip label.data)) (lcStr kv.1.data) = false)
    (hparse : findExpYears (lcStr (pyStrip label.data)) = some n) :
    (isCountryLabel (lcStr (pyStrip label.data)) = false →
      dropdownDecision responses label applicantYears =
        .selectValue (if n ≤ applicantYears then "Yes" else "No")) ∧
    radioGroupAnswer responses label applicantYears =
      some (if n ≤ applicantYears then "yes" else "no") := by
  have hfind : responses.find?
      (fun kv => containsSub (lcStr (pyStrip label.data)) (lcStr kv.1.data)) = none :=
    List.find?_eq_none.mpr (fun kv hkv => by simp [hnokey kv hkv])
  constructor
  · intro hnc
    simp only [dropdownDecision, firstResponseMatch, hnc, Bool.false_eq_true, if_false,
      hfind, Option.map_none', hparse]
  · simp only [radioGroupAnswer, hfind, Option.map_none', hparse]

/-- Witness for C3: the spec's concrete example label at applicant years 3
(answer no), 7 (answer yes) and the boundary 5 (answer yes, `≤`
comparison). -/
theorem experience_heuristic_answer_witness :
    dropdownDecision [] "Do you have 5+ years of experience" 3 = .selectValue "No" ∧
    dropdownDecision [] "Do you have 5+ years of experience" 7 = .selectValue "Yes" ∧
    dropdownDecision [] "Do you have 5+ years of experience" 5 = .selectValue "Yes" ∧
    radioGroupAnswer [] "Do you have 5+ years of experience" 3 = some "no" := by
  have h3 := experience_heuristic_answer [] "Do you have 5+ years of experience" 3 5
    (by simp) (by decide)
  have h7 := experience_heuristic_answer [] "Do you have 5+ years of experience" 7 5
    (by simp) (by decide)
  have h5 := experience_heuristic_answer [] "Do you have 5+ years of experience" 5 5
    (by simp) (by decide)
  refine ⟨?_, ?_, ?_, ?_⟩
  · rw [h3.1 (by decide)]
    norm_num
  · rw [h7.1 (by decide)]
    norm_num
  · rw [h5.1 (by decide)]
    norm_num
  · rw [h3.2]
    norm_num

/-! ## C5: company blacklist filtering -/

def spamPosting : JobPosting :=
  { platform := "linkedin", platform_id := "777", url := "https://x/777",
    title := "QA Engineer", company := "SpamCorp Inc." }

def emptyPage : PageView := ⟨false, false, false, false, false, false, false⟩

/-- C5 counterexample: the empty string is a blocked term of the
configuration `[""]` and is (vacuously) contained in the lowercased company
name, yet the filter's constructor drops terms that are empty after
stripping, so `evaluate` accepts the posting and the pipeline does not record
`skipped_blacklist`. -/
theorem company_block_empty_term_cex :
    ("" ∈ [""]) ∧
    containsSub (lcStr spamPosting.company.data) (lcStr ("" : String).data) = true ∧
    filterChainReason [""] [] spamPosting = none ∧
    processSinglePosting [""] [] spamPosting true true false (fun _ => emptyPage)
      ≠ (Outcome.skipped_blacklist, false) := by
  refine ⟨by decide, by decide, by decide, by decide⟩

/-- C5 (amended): for every blocked term that is non-empty after whitespace
stripping, a lowercased company name containing the lowercased term makes the
filter chain return a non-empty rejection reason, and the pipeline records
`skipped_blacklist` without starting a submission attempt. -/
theorem company_block_filters (blockedCompanies blockedTitles : List String)
    (p : JobPosting) (term : String) (easyApplyFound clickOk simulation : Bool)
    (pages : Nat → PageView)
    (hmem : term ∈ blockedCompanies)
    (hstrip : pyStrip term.data ≠ [])
    (hsub : containsSub (lcStr p.company.data) (lcStr term.data) = true) :
    (∃ r, filterChainReason blockedCompanies blockedTitles p = some r ∧ r ≠ "") ∧
    processSinglePosting blockedCompanies blockedTitles p easyApplyFound clickOk
      simulation pages = (Outcome.skipped_blacklist, false) := by
  have hmem' : lcStr (pyStrip term.data) ∈ normBlockedTerms blockedCompanies := by
    unfold normBlockedTerms
    refine List.mem_map.mpr ⟨term, ?_, rfl⟩
    refine List.mem_filter.mpr ⟨hmem, ?_⟩
    simpa using hstrip
  have hsub' : containsSub (lcStr p.company.data) (lcStr (pyStrip term.data)) = true := by
    obtain ⟨l, r, hdecomp⟩ := pyStrip_infix_decomp term.data
    apply containsSub_of_middle (lcStr p.company.data) (lcStr l) _ (lcStr r)
    rw [← lcStr_append, ← lcStr_append, ← hdecomp]
    exact hsub
  obtain ⟨t, ht⟩ : ∃ t, (normBlockedTerms blockedCompanies).find?
      (fun t => containsSub (lcStr p.company.data) t) = some t := by
    cases hf : (normBlockedTerms blockedCompanies).find?
        (fun t => containsSub (lcStr p.company.data) t) with
    | some t => exact ⟨t, rfl⟩
    | none => exact absurd hsub' (by simpa using List.find?_eq_none.mp hf _ hmem')
  have htmem := List.mem_of_find?_eq_some ht
  have htne : t ≠ [] := by
    unfold normBlockedTerms at htmem
    obtain ⟨c, hc, rfl⟩ := List.mem_map.mp htmem
    have hcstrip := (List.mem_filter.mp hc).2
    intro hnil
    have hnil' : pyStrip c.data = [] := List.map_eq_nil_iff.mp hnil
    simp [hnil'] at hcstrip
  have hreason : companyBlockCheck blockedCompanies p =
      some ("blocked_company:" ++ (⟨t⟩ : String)) := by
    simp only [companyBlockCheck, ht, Option.map_some']
  have hemp : blockedCompanies.isEmpty = false := by
    cases blockedCompanies with
    | nil => cases hmem
    | cons a l => rfl
  have hchain : filterChainReason blockedCompanies blockedTitles p =
      some ("blocked_company:" ++ (⟨t⟩ : String)) := by
    simp only [filterChainReason, hemp, Bool.false_eq_true, if_false, hreason]
  have hrne : ("blocked_company:" ++ (⟨t⟩ : String)) ≠ "" := by
    intro h
    have hd := congrArg String.data h
    rw [String.data_append] at hd
    exact absurd hd (by simp)
  refine ⟨⟨_, hchain, hrne⟩, ?_⟩
  simp only [processSinglePosting, hchain]
  rw [if_neg hrne]

/-- Witness for C5: company "SpamCorp Inc." with blocked term "spamcorp" is
rejected and recorded as `skipped_blacklist` with no submission attempt. -/
theorem company_block_filters_witness :
    processSinglePosting ["spamcorp"] [] spamPosting true true false (fun _ => emptyPage)
      = (Outcome.skipped_blacklist, false) :=
  (company_block_filters ["spamcorp"] [] spamPosting "spamcorp" true true false
    (fun _ => emptyPage) (by decide) (by decide) (by decide)).2

/-! ## C8: idempotence of the field-population passes -/

def agreeGroup : RadioGroup :=
  { legend := "Do you agree to the terms?",
    options := [⟨"Yes", false⟩, ⟨"No", true⟩] }

/-- C8: the JS radio pass of `_fill_radio_buttons` performs no
already-checked test — on a fieldset whose group already has a selected
option (`No` checked) and whose legend matches a response key, the pass
clicks the matching `Yes` radio and changes the existing selection, so a
second engine run over an already-filled form is not a no-op.  (The
Playwright fallback in the same function does skip groups with a `:checked`
radio, matching the spec's idempotence contract.) -/
theorem radio_js_pass_overwrites_selection :
    groupHasSelection agreeGroup = true ∧
    radioJsPassGroup [("agree", "Yes")] 3 agreeGroup =
      { legend := "Do you agree to the terms?",
        options := [⟨"Yes", true⟩, ⟨"No", false⟩] } ∧
    radioJsPassGroup [("agree", "Yes")] 3 agreeGroup ≠ agreeGroup := by
  refine ⟨by decide, by decide, by decide⟩

end TalentPilot
